import Mathlib

/-!
Verification of properties of four Blender source fragments:
the Cycles SVM map-range kernel node, the BLI integer Range template,
the LANPR grease-pencil update operators, and the palette RNA bindings.

Floating-point values of the kernel node are modelled as exact rationals;
machine pointers are modelled as abstract identifiers.
-/

/- ------------------------------------------------------------------ -/
/- Part 1: src/intern/cycles/kernel/svm/svm_map_range.h               -/
/- ------------------------------------------------------------------ -/

/-- `stack_load_float(stack, offset)`: read one float slot of the SVM stack.
The stack is modelled as a total map from slot offsets to rational values. -/
def stack_load_float (stack : Nat → Rat) (offset : Nat) : Rat :=
  stack offset

/-- `stack_store_float(stack, offset, value)`: write one float slot of the
SVM stack, returning the updated stack. -/
def stack_store_float (stack : Nat → Rat) (offset : Nat) (value : Rat) : Nat → Rat :=
  fun i => if i = offset then value else stack i

/-- `svm_node_map_range` from svm_map_range.h.  The fields `node1.y`,
`node1.z`, `node1.w` read by `read_node` are passed as the parameters
`node1_y`, `node1_z`, `node1_w`.  Floats are modelled as rationals. -/
def svm_node_map_range (stack : Nat → Rat)
    (value_offset fromMin_offset fromMax_offset : Nat)
    (node1_y node1_z node1_w : Nat) : Nat → Rat :=
  let value := stack_load_float stack value_offset
  let fromMin := stack_load_float stack fromMin_offset
  let fromMax := stack_load_float stack fromMax_offset
  let toMin := stack_load_float stack node1_y
  let toMax := stack_load_float stack node1_z
  let r : Rat :=
    if fromMax ≠ fromMin ∧ toMax ≠ toMin then
      toMin + ((value - fromMin) / (fromMax - fromMin)) * (toMax - toMin)
    else
      0
  stack_store_float stack node1_w r

/- ------------------------------------------------------------------ -/
/- Part 2: src/source/blender/blenlib/BLI_range.hpp                   -/
/- ------------------------------------------------------------------ -/

namespace BLI

/-- `BLI::Range<T>` instantiated at integers: the two private fields
`m_start` and `m_one_after_last`. -/
structure Range where
  m_start : Int
  m_one_after_last : Int
deriving DecidableEq, Repr

/-- The expression asserted by the `Range(start, one_after_last)` constructor:
`BLI_assert(start <= one_after_last)`. -/
def Range.ctor_assert (start one_after_last : Int) : Bool :=
  decide (start ≤ one_after_last)

/-- `Range::size()`: `m_one_after_last - m_start`, converted to `uint`
(reduction modulo 2^32). -/
def Range.size (r : Range) : Int :=
  (r.m_one_after_last - r.m_start) % (2 ^ 32)

/-- One step of the iterator loop `for (it = begin(); it != end(); ++it)`:
starting from `cur`, stop as soon as the current value equals the `end()`
sentinel `stop`, otherwise yield `cur` and continue from `cur + 1`.
`fuel` bounds the number of `operator++` applications; the loop itself only
tests `!=`, and `Range.iterAux_fuel` below shows any sufficient fuel gives
the same list. -/
def Range.iterAux (stop : Int) : Nat → Int → List Int
  | 0, _ => []
  | Nat.succ n, cur => if cur = stop then [] else cur :: Range.iterAux stop n (cur + 1)

/-- The sequence of values produced by iterating the range from `begin()`
to `end()`. -/
def Range.toList (r : Range) : List Int :=
  Range.iterAux r.m_one_after_last (r.m_one_after_last - r.m_start).toNat r.m_start

/-- `Range::contains(value)`: `value >= m_start && value < m_one_after_last`. -/
def Range.contains (r : Range) (value : Int) : Bool :=
  decide (value ≥ r.m_start) && decide (value < r.m_one_after_last)

/-- `operator==(Range a, Range b)`:
`a.m_start == b.m_start && a.m_one_after_last == b.m_one_after_last`. -/
def Range.rangeEq (a b : Range) : Bool :=
  decide (a.m_start = b.m_start) && decide (a.m_one_after_last = b.m_one_after_last)

/-- `Range::slice(start, size)`: builds `Range(new_start, new_start + size)`
with `new_start = m_start + start`. -/
def Range.slice (r : Range) (start size : Nat) : Range :=
  ⟨r.m_start + start, r.m_start + start + size⟩

/-- The expression asserted by `Range::slice`:
`BLI_assert(new_start + size <= m_one_after_last || size == 0)`. -/
def Range.slice_assert (r : Range) (start size : Nat) : Bool :=
  decide (r.m_start + start + size ≤ r.m_one_after_last) || decide (size = 0)

end BLI

/- ------------------------------------------------------------------ -/
/- Part 3: src/source/blender/editors/lanpr/lanpr_ops.c               -/
/- ------------------------------------------------------------------ -/

namespace LANPR

/-- The `LANPR_MASTER_MODE_SOFTWARE` tag from DNA_lanpr_types.h (not part of
this excerpt); only (in)equality against it is ever used, so the concrete
numeral is irrelevant. -/
def LANPR_MASTER_MODE_SOFTWARE : Int := 0

/-- One `LANPR_RenderLineChain`: the fields read or written by
`lanpr_generate_gpencil_from_chain` — the one-shot `picked` marker, the
originating object (`object_ref->id.orig_id`, modelled as an abstract object
identifier, `none` for intersection lines), the line-type bitmask and the
occlusion level. -/
structure RenderLineChain where
  picked : Bool
  object_ref : Option Nat
  type : Nat
  level : Int
deriving DecidableEq, Repr

/-- The shared `LANPR_RenderBuffer`: the frame it was last computed for and
the cached chain list. -/
structure RenderBuffer where
  cached_for_frame : Int
  chains : List RenderLineChain
deriving DecidableEq, Repr

/-- The `SceneLANPR` fields consumed by the operators in this excerpt. -/
structure SceneLANPR where
  master_mode : Int
deriving DecidableEq, Repr

/-- The `Scene` fields consumed by the operators: current frame `r.cfra`,
frame range `r.sfra ... r.efra` and the per-scene LANPR settings. -/
structure Scene where
  cfra : Int
  sfra : Int
  efra : Int
  lanpr : SceneLANPR
deriving DecidableEq, Repr

/-- The parameters of one call to `lanpr_generate_gpencil_from_chain` as made
by the traversal passes: the source object filter `ob` (`NULL` for the
collection pass), the collection filter `col` modelled as the set of object
identifiers recursively contained in the collection
(`BKE_collection_has_object_recursive`), the occlusion-level window
`qi_begin ... qi_end` and the line-type bitmask `types`. -/
structure GenCall where
  ob : Option Nat
  col : Option (List Nat)
  qi_begin : Int
  qi_end : Int
  types : Nat
deriving DecidableEq, Repr

/-- The filter cascade applied to one chain inside the loop of
`lanpr_generate_gpencil_from_chain`, in the textual order of the source:
`picked`, then `ob && !object_ref`, then the type bitmask, then the
occlusion-level window, then the object-match test, then the collection
test.  Returns `true` exactly when no `continue` is taken, i.e. when the
chain is emitted as a stroke. -/
def chainAccept (p : GenCall) (c : RenderLineChain) : Bool :=
  if c.picked then false
  else if p.ob.isSome && c.object_ref.isNone then false
  else if c.type &&& p.types = 0 then false
  else if c.level > p.qi_end || c.level < p.qi_begin then false
  else if (match p.ob, c.object_ref with
           | some o, some r => decide (o ≠ r)
           | _, _ => false) then false
  else if (match p.col, c.object_ref with
           | some cl, some r => !(cl.contains r)
           | _, _ => false) then false
  else true

/-- Which rejection filter (if any) rejects a chain, the filters grouped the
way claim sentences group them: the already-picked test, the
collection/object/source tests, the type bitmask test and the level-range
test. -/
inductive FilterTag where
  | alreadyPicked
  | sourceFilter
  | typeFilter
  | levelFilter
deriving DecidableEq, Repr

/-- The first filter that rejects a chain, in the order the filters appear in
`lanpr_generate_gpencil_from_chain`: already-picked, null-object-ref,
type bitmask, level range, object match, collection membership.  `none`
when the chain survives every filter. -/
def firstRejectCode (p : GenCall) (c : RenderLineChain) : Option FilterTag :=
  if c.picked then some .alreadyPicked
  else if p.ob.isSome && c.object_ref.isNone then some .sourceFilter
  else if c.type &&& p.types = 0 then some .typeFilter
  else if c.level > p.qi_end || c.level < p.qi_begin then some .levelFilter
  else if (match p.ob, c.object_ref with
           | some o, some r => decide (o ≠ r)
           | _, _ => false) then some .sourceFilter
  else if (match p.col, c.object_ref with
           | some cl, some r => !(cl.contains r)
           | _, _ => false) then some .sourceFilter
  else none

/-- Modelled from the spec: the first rejecting filter under the order the
claim states — already-picked first, then all collection/object/source
filters, then the type bitmask filter, then the level-range filter.  Written
from the claim's words, for comparison with `firstRejectCode`. -/
def firstRejectClaimOrder (p : GenCall) (c : RenderLineChain) : Option FilterTag :=
  if c.picked then some .alreadyPicked
  else if (p.ob.isSome && c.object_ref.isNone) ||
          (match p.ob, c.object_ref with
           | some o, some r => decide (o ≠ r)
           | _, _ => false) ||
          (match p.col, c.object_ref with
           | some cl, some r => !(cl.contains r)
           | _, _ => false) then some .sourceFilter
  else if c.type &&& p.types = 0 then some .typeFilter
  else if c.level > p.qi_end || c.level < p.qi_begin then some .levelFilter
  else none

/-- Processing of one chain by the emission loop: an accepted chain has its
`picked` flag set to 1 and its stroke added (`true` in the second
component); a rejected chain is left untouched. -/
def chainStep (p : GenCall) (c : RenderLineChain) : RenderLineChain × Bool :=
  if chainAccept p c then ({ c with picked := true }, true) else (c, false)

/-- The body of `lanpr_generate_gpencil_from_chain` on a non-NULL render
buffer: if the evaluated scene's master mode is not software, return without
touching anything; otherwise walk `rb->chains` once, applying `chainStep` to
each chain.  The second component records, chain by chain, whether a stroke
was added for it. -/
def generateOnBuffer (master_mode : Int) (b : RenderBuffer) (p : GenCall) :
    RenderBuffer × List Bool :=
  if master_mode ≠ LANPR_MASTER_MODE_SOFTWARE then
    (b, List.replicate b.chains.length false)
  else
    let processed := b.chains.map (chainStep p)
    ({ b with chains := processed.map Prod.fst }, processed.map Prod.snd)

/-- `lanpr_generate_gpencil_from_chain`: a NULL shared render buffer prints a
diagnostic and returns with no stroke emitted; otherwise the buffer is
processed by `generateOnBuffer`. -/
def lanpr_generate_gpencil_from_chain (master_mode : Int)
    (rb : Option RenderBuffer) (p : GenCall) : Option RenderBuffer × List Bool :=
  match rb with
  | none => (none, [])
  | some b =>
    let (b1, emitted) := generateOnBuffer master_mode b p
    (some b1, emitted)

/-- The sequence of `lanpr_generate_gpencil_from_chain` calls performed by
the recursive per-object pass (`lanpr_update_gp_strokes_recursive`) followed
by the per-collection pass (`lanpr_update_gp_strokes_collection`), abstracted
as a list of call parameters determined by the scene traversal.  The second
component counts, chain by chain, how many strokes were emitted for that
chain over all calls. -/
def runCalls (master_mode : Int) (b : RenderBuffer) :
    List GenCall → RenderBuffer × List Nat
  | [] => (b, List.replicate b.chains.length 0)
  | p :: rest =>
    let (b1, emitted) := generateOnBuffer master_mode b p
    let (b2, counts) := runCalls master_mode b1 rest
    (b2, List.zipWith (fun e n => (if e then 1 else 0) + n) emitted counts)

/-- Modelled from the spec: `lanpr_compute_feature_lines_internal` (declared
in lanpr_ops.c, defined outside this excerpt) populates the shared render
buffer and tags it with the frame it was computed for.  The chain list it
produces is an abstract input. -/
def lanpr_compute_feature_lines_internal (cfra : Int)
    (newChains : List RenderLineChain) : RenderBuffer :=
  ⟨cfra, newChains⟩

/-- Modelled from the spec: `lanpr_chain_clear_picked_flag` (declared in
lanpr_ops.c, defined outside this excerpt) clears every chain's one-shot
`picked` marker in the render buffer. -/
def lanpr_chain_clear_picked_flag (b : RenderBuffer) : RenderBuffer :=
  { b with chains := b.chains.map (fun c => { c with picked := false }) }

/-- The body shared by the three single-frame update operators
(`lanpr_update_gp_strokes_exec`, `lanpr_update_gp_target_exec`,
`lanpr_update_gp_source_exec`): lazily recompute the shared buffer when it
is absent or cached for a different frame, clear every picked flag, then run
the recursive pass and the collection pass (abstracted as `calls`).  Returns
the new shared buffer, whether the feature-line computation was invoked, and
the per-chain stroke-emission counts. -/
def updateGpStrokesBody (scene : Scene) (share : Option RenderBuffer)
    (newChains : List RenderLineChain) (calls : List GenCall) :
    Option RenderBuffer × Bool × List Nat :=
  let frame := scene.cfra
  let invoked : Bool :=
    match share with
    | none => true
    | some rb => decide (rb.cached_for_frame ≠ frame)
  let share1 : Option RenderBuffer :=
    if invoked then some (lanpr_compute_feature_lines_internal frame newChains) else share
  match share1 with
  | none => (none, invoked, [])
  | some b =>
    let b1 := lanpr_chain_clear_picked_flag b
    let (b2, counts) := runCalls scene.lanpr.master_mode b1 calls
    (some b2, invoked, counts)

/-- `lanpr_update_gp_strokes_exec`: the Update LANPR Strokes operator. -/
def lanpr_update_gp_strokes_exec (scene : Scene) (share : Option RenderBuffer)
    (newChains : List RenderLineChain) (calls : List GenCall) :
    Option RenderBuffer × Bool × List Nat :=
  updateGpStrokesBody scene share newChains calls

/-- `lanpr_update_gp_target_exec`: the per-target update operator; it differs
from `lanpr_update_gp_strokes_exec` only in the `target_only` argument
threaded into the traversal, which is absorbed into `calls`. -/
def lanpr_update_gp_target_exec (scene : Scene) (share : Option RenderBuffer)
    (newChains : List RenderLineChain) (calls : List GenCall) :
    Option RenderBuffer × Bool × List Nat :=
  updateGpStrokesBody scene share newChains calls

/-- `lanpr_update_gp_source_exec`: the per-source update operator; it differs
from `lanpr_update_gp_strokes_exec` only in the `source_only` argument
threaded into the traversal, which is absorbed into `calls`. -/
def lanpr_update_gp_source_exec (scene : Scene) (share : Option RenderBuffer)
    (newChains : List RenderLineChain) (calls : List GenCall) :
    Option RenderBuffer × Bool × List Nat :=
  updateGpStrokesBody scene share newChains calls

/-- `ED_lanpr_update_data_for_external`: returns immediately when the master
mode is not software; otherwise recomputes the shared buffer exactly when it
is absent or cached for a different frame.  The second component records
whether `lanpr_compute_feature_lines_internal` was invoked. -/
def ED_lanpr_update_data_for_external (scene : Scene)
    (share : Option RenderBuffer) (newChains : List RenderLineChain) :
    Option RenderBuffer × Bool :=
  if scene.lanpr.master_mode ≠ LANPR_MASTER_MODE_SOFTWARE then
    (share, false)
  else if (match share with
           | none => true
           | some rb => decide (rb.cached_for_frame ≠ scene.cfra)) then
    (some (lanpr_compute_feature_lines_internal scene.cfra newChains), true)
  else
    (share, false)

/-- The frames `sfra, sfra + 1, ..., efra` visited by the bake loop
`for (frame = frame_begin; frame <= frame_end; frame++)`. -/
def framesList (sfra efra : Int) : List Int :=
  (List.range (efra - sfra + 1).toNat).map (fun i => sfra + i)

/-- One iteration of the bake loop: evaluate the scene at `frame`, compute the
feature lines unconditionally, clear every picked flag, then run both
traversal passes for that frame, appending the per-chain emission counts. -/
def bakeStep (master_mode : Int) (newChainsAt : Int → List RenderLineChain)
    (callsAt : Int → List GenCall)
    (st : Option RenderBuffer × List (List Nat)) (frame : Int) :
    Option RenderBuffer × List (List Nat) :=
  let b := lanpr_compute_feature_lines_internal frame (newChainsAt frame)
  let b1 := lanpr_chain_clear_picked_flag b
  let (b2, counts) := runCalls master_mode b1 (callsAt frame)
  (some b2, st.2 ++ [counts])

/-- `lanpr_bake_gp_strokes_exec`: the whole-timeline bake operator.  Returns
the final shared buffer and, for each frame, the per-chain emission counts
of that frame's update. -/
def lanpr_bake_gp_strokes_exec (scene : Scene) (share : Option RenderBuffer)
    (newChainsAt : Int → List RenderLineChain) (callsAt : Int → List GenCall) :
    Option RenderBuffer × List (List Nat) :=
  (framesList scene.sfra scene.efra).foldl
    (bakeStep scene.lanpr.master_mode newChainsAt callsAt) (share, [])

/-- Set every chain's picked flag in an optional buffer; used to state that
the operators' emissions do not depend on the picked flags left over in the
cache. -/
def setAllPicked (share : Option RenderBuffer) : Option RenderBuffer :=
  share.map (fun b => { b with chains := b.chains.map (fun c => { c with picked := true }) })

/-- Processing of one chain by one generate call, the early master-mode
return of `lanpr_generate_gpencil_from_chain` included; per-chain view of
`generateOnBuffer`, proved to agree with it in `runCalls_pointwise`. -/
def chainStepM (master_mode : Int) (p : GenCall) (c : RenderLineChain) :
    RenderLineChain × Bool :=
  if master_mode ≠ LANPR_MASTER_MODE_SOFTWARE then (c, false) else chainStep p c

/-- Per-chain view of `runCalls`: the evolution of one chain over a sequence
of generate calls, together with the number of strokes emitted for it;
proved to agree with `runCalls` in `runCalls_pointwise`. -/
def chainRunCalls (master_mode : Int) : List GenCall → RenderLineChain →
    RenderLineChain × Nat
  | [], c => (c, 0)
  | p :: rest, c =>
    let (c1, e) := chainStepM master_mode p c
    let (c2, n) := chainRunCalls master_mode rest c1
    (c2, (if e then 1 else 0) + n)

end LANPR

/- ------------------------------------------------------------------ -/
/- Part 4: src/source/blender/makesrna/intern/rna_palette.c           -/
/- ------------------------------------------------------------------ -/

namespace RNA

/-- One `PaletteColor`: its memory address modelled as an abstract identifier
`ptr`, and its name field `info`. -/
structure PaletteColor where
  ptr : Nat
  info : String
deriving DecidableEq, Repr

/-- A `Palette`: its ID name (`palette->id.name`, including the two-byte ID
type prefix), its ordered color list and the `active_color` index. -/
structure Palette where
  id_name : String
  colors : List PaletteColor
  active_color : Int
deriving DecidableEq, Repr

/-- `BLI_findindex`: walk the list and return the position of the element
with the given address, or -1 when it is not in the list. -/
def BLI_findindex (l : List PaletteColor) (c : Nat) : Int :=
  match l with
  | [] => -1
  | x :: xs =>
    if x.ptr = c then 0
    else if BLI_findindex xs c = -1 then -1 else BLI_findindex xs c + 1

/-- `BLI_findlink`: return the element at the given index, or NULL (`none`)
when the index is negative or past the end. -/
def BLI_findlink (l : List PaletteColor) (i : Int) : Option PaletteColor :=
  if 0 ≤ i then l.get? i.toNat else none

/-- Modelled from the spec: `BKE_palette_color_remove` (from BKE_paint, not
part of this excerpt) removes the given color from the palette's ordered
color list. -/
def BKE_palette_color_remove (palette : Palette) (c : Nat) : Palette :=
  { palette with colors := palette.colors.eraseP (fun x => decide (x.ptr = c)) }

/-- The report emitted by `rna_Palette_color_remove` when the color is not in
the palette (`BKE_reportf(reports, RPT_ERROR, ...)` with the palette name
without its two-byte ID prefix). -/
def paletteRemoveError (palette : Palette) : String :=
  "Palette " ++ palette.id_name.drop 2 ++ " does not contain color given"

/-- `rna_Palette_color_remove`: when the color is not found in the palette's
color list, report a user-facing error and return with everything unchanged;
otherwise remove the color and invalidate the RNA pointer
(`RNA_POINTER_INVALIDATE`, the final boolean). -/
def rna_Palette_color_remove (palette : Palette) (reports : List String)
    (color : Nat) : Palette × List String × Bool :=
  if BLI_findindex palette.colors color = -1 then
    (palette, reports ++ [paletteRemoveError palette], false)
  else
    (BKE_palette_color_remove palette color, reports, true)

/-- The ".001"-style numeric suffix appended by the unique-name machinery. -/
def numSuffix (k : Nat) : String :=
  "." ++ (if k < 10 then "00" ++ toString k
          else if k < 100 then "0" ++ toString k
          else toString k)

/-- Search loop of the unique-name machinery: try `base ++ numSuffix k`,
`base ++ numSuffix (k+1)`, ... until a candidate free of `others` is found;
`fuel` bounds the search (one more than the number of taken names always
suffices). -/
def uniquifyLoop (others : List String) (base : String) : Nat → Nat → String
  | _, 0 => base
  | k, Nat.succ fuel =>
    let cand := base ++ numSuffix k
    if others.contains cand then uniquifyLoop others base (k + 1) fuel else cand

/-- Modelled from the spec: `BLI_uniquename` (from BLI_string_utils, not part
of this excerpt) performs duplicate-name disambiguation — an empty name is
replaced by the default name, and a name already carried by another element
of the list gets a numeric suffix chosen so that the result is unique. -/
def BLI_uniquename (others : List String) (defname name : String) : String :=
  let base := if name = "" then defname else name
  if others.contains base then
    uniquifyLoop others base 1 (others.length + 1)
  else base

/-- `rna_PaletteColor_info_set(ptr, value)`: `ptr` addresses the palette
color whose `name` property is being set (`targetPtr`), yet the function
looks up `BLI_findlink(&palette->colors, palette->active_color)` and writes
the new (disambiguated) name into that color's `info` field.  A NULL lookup
result (active index out of range) dereferences NULL in the C code and is
modelled as leaving the palette unchanged.  The external renames
(`BKE_gpencil_palettecolor_allnames`, `BKE_animdata_fix_paths_rename_all`)
touch data outside the palette and are not modelled. -/
def rna_PaletteColor_info_set (palette : Palette) (targetPtr : Nat)
    (value : String) : Palette :=
  match BLI_findlink palette.colors palette.active_color with
  | none => palette
  | some palcolor =>
    let others := (palette.colors.filter (fun x => decide (x.ptr ≠ palcolor.ptr))).map
      (fun x => x.info)
    let newname := BLI_uniquename others "Color" value
    { palette with
      colors := palette.colors.map
        (fun x => if x.ptr = palcolor.ptr then { x with info := newname } else x) }

end RNA

/- ------------------------------------------------------------------ -/
/- Theorems                                                           -/
/- ------------------------------------------------------------------ -/

/- Part 1 helpers -/

/-- Output slot of the map-range node on non-degenerate intervals. -/
theorem svm_map_range_formula (stack : Nat → Rat)
    (v fmin fmax ny nz nw : Nat)
    (h : stack fmax ≠ stack fmin ∧ stack nz ≠ stack ny) :
    svm_node_map_range stack v fmin fmax ny nz nw nw =
      stack ny + ((stack v - stack fmin) / (stack fmax - stack fmin)) *
        (stack nz - stack ny) := by
  simp [svm_node_map_range, stack_load_float, stack_store_float, h]

/-- Output slot of the map-range node on a degenerate interval pair. -/
theorem svm_map_range_degenerate (stack : Nat → Rat)
    (v fmin fmax ny nz nw : Nat)
    (h : stack fmax = stack fmin ∨ stack nz = stack ny) :
    svm_node_map_range stack v fmin fmax ny nz nw nw = 0 := by
  have hne : ¬(stack fmax ≠ stack fmin ∧ stack nz ≠ stack ny) := by tauto
  simp [svm_node_map_range, stack_load_float, stack_store_float, hne]

/-- C1: for every input value and intervals, the range-map node stores
`toMin + ((value - fromMin) / (fromMax - fromMin)) * (toMax - toMin)` into
the output slot when `fromMax != fromMin` and `toMax != toMin`, and stores
exactly 0 whenever `fromMax == fromMin` or `toMax == toMin`; the division is
only performed under the guard that makes its divisor nonzero. -/
theorem svm_node_map_range_correct (stack : Nat → Rat)
    (v fmin fmax ny nz nw : Nat) :
    ((stack fmax ≠ stack fmin ∧ stack nz ≠ stack ny) →
      svm_node_map_range stack v fmin fmax ny nz nw nw =
        stack ny + ((stack v - stack fmin) / (stack fmax - stack fmin)) *
          (stack nz - stack ny)) ∧
    ((stack fmax = stack fmin ∨ stack nz = stack ny) →
      svm_node_map_range stack v fmin fmax ny nz nw nw = 0) :=
  ⟨svm_map_range_formula stack v fmin fmax ny nz nw,
   svm_map_range_degenerate stack v fmin fmax ny nz nw⟩

/-- Witness for C1: slots hold their own offsets, value 9 remapped from
[2, 4] to [0, 1] gives 7/2; remapping from the degenerate [2, 2] gives 0. -/
theorem svm_node_map_range_correct_witness :
    svm_node_map_range (fun i => (i : Rat)) 9 2 4 0 1 7 7 = 7 / 2 ∧
    svm_node_map_range (fun i => (i : Rat)) 9 2 2 0 1 7 7 = 0 := by
  constructor
  · have h := (svm_node_map_range_correct (fun i => (i : Rat)) 9 2 4 0 1 7).1
      (by norm_num)
    rw [h]; norm_num
  · have h := (svm_node_map_range_correct (fun i => (i : Rat)) 9 2 2 0 1 7).2
      (by norm_num)
    rw [h]

/-- C5: with non-degenerate intervals, the node output at
`value == fromMin` is exactly `toMin`, and at `value == fromMax` exactly
`toMax`. -/
theorem svm_node_map_range_boundary (stack : Nat → Rat)
    (v fmin fmax ny nz nw : Nat)
    (h1 : stack fmax ≠ stack fmin) (h2 : stack nz ≠ stack ny) :
    (stack v = stack fmin →
      svm_node_map_range stack v fmin fmax ny nz nw nw = stack ny) ∧
    (stack v = stack fmax →
      svm_node_map_range stack v fmin fmax ny nz nw nw = stack nz) := by
  constructor
  · intro hv
    rw [svm_map_range_formula stack v fmin fmax ny nz nw ⟨h1, h2⟩, hv]
    simp
  · intro hv
    rw [svm_map_range_formula stack v fmin fmax ny nz nw ⟨h1, h2⟩, hv,
      div_self (sub_ne_zero.mpr h1), one_mul]
    ring

/-- Witness for C5: with value slot aliased to the interval bound slots,
remapping from [2, 4] to [0, 1] sends 2 to 0 and 4 to 1. -/
theorem svm_node_map_range_boundary_witness :
    svm_node_map_range (fun i => (i : Rat)) 2 2 4 0 1 7 7 = 0 ∧
    svm_node_map_range (fun i => (i : Rat)) 4 2 4 0 1 7 7 = 1 := by
  constructor
  · have h := (svm_node_map_range_boundary (fun i => (i : Rat)) 2 2 4 0 1 7
      (by norm_num) (by norm_num)).1 rfl
    simpa using h
  · have h := (svm_node_map_range_boundary (fun i => (i : Rat)) 4 2 4 0 1 7
      (by norm_num) (by norm_num)).2 rfl
    simpa using h

/- Part 2 helpers -/

namespace BLI

/-- With fuel exactly the distance to the sentinel, the iterator loop yields
the arithmetic progression of step one. -/
theorem Range.iterAux_eq_range (n : Nat) : ∀ cur : Int,
    Range.iterAux (cur + n) n cur = (List.range n).map (fun i : Nat => cur + (i : Int)) := by
  induction n with
  | zero => intro cur; simp [Range.iterAux]
  | succ n ih =>
    intro cur
    have hne : ¬(cur = cur + ((n : Int) + 1)) := by omega
    have harg : cur + ((n + 1 : Nat) : Int) = (cur + 1) + (n : Int) := by push_cast; ring
    calc Range.iterAux (cur + ((n + 1 : Nat) : Int)) (n + 1) cur
        = cur :: Range.iterAux (cur + ((n + 1 : Nat) : Int)) n (cur + 1) := by
          simp only [Range.iterAux]
          rw [if_neg (by push_cast; omega)]
      _ = cur :: Range.iterAux ((cur + 1) + (n : Int)) n (cur + 1) := by rw [harg]
      _ = cur :: (List.range n).map (fun i : Nat => (cur + 1) + (i : Int)) := by rw [ih]
      _ = (List.range (n + 1)).map (fun i : Nat => cur + (i : Int)) := by
          rw [List.range_succ_eq_map, List.map_cons, List.map_map]
          refine congrArg₂ _ (by simp) (List.map_congr_left fun i _ => ?_)
          simp [Function.comp]
          ring

/-- Extra fuel beyond the distance to the sentinel does not change the list
the iterator loop yields: the `!=` test, not the fuel, ends the loop. -/
theorem Range.iterAux_fuel (n : Nat) : ∀ (k : Nat) (cur : Int),
    Range.iterAux (cur + n) (n + k) cur = Range.iterAux (cur + n) n cur := by
  induction n with
  | zero =>
    intro k cur
    cases k with
    | zero => rfl
    | succ k => simp [Range.iterAux]
  | succ n ih =>
    intro k cur
    have harg : cur + ((n + 1 : Nat) : Int) = (cur + 1) + (n : Int) := by push_cast; ring
    have hne : ¬(cur = cur + ((n + 1 : Nat) : Int)) := by push_cast; omega
    have hstep : n + 1 + k = (n + k) + 1 := by omega
    rw [hstep]
    simp only [Range.iterAux, if_neg hne]
    rw [harg, ih k (cur + 1)]

end BLI

/-- C6: for every `Range(start, one_after_last)` with
`start <= one_after_last`, `size()` is `one_after_last - start` (the `uint`
conversion being lossless below 2^32), iterating from `begin()` to `end()`
yields exactly the values `start, start + 1, ...` — `size()` of them, in
increasing order with step one — and `contains(v)` holds iff
`start <= v < one_after_last`. -/
theorem BLI_Range_iteration_spec (s e : Int) (h : s ≤ e) :
    (e - s < 2 ^ 32 → (BLI.Range.mk s e).size = e - s) ∧
    (BLI.Range.mk s e).toList =
      (List.range (e - s).toNat).map (fun i : Nat => s + (i : Int)) ∧
    (BLI.Range.mk s e).toList.length = (e - s).toNat ∧
    (∀ v : Int, (BLI.Range.mk s e).contains v = true ↔ (s ≤ v ∧ v < e)) := by
  have he : e = s + ((e - s).toNat : Int) := by omega
  have htl : (BLI.Range.mk s e).toList =
      (List.range (e - s).toNat).map (fun i : Nat => s + (i : Int)) := by
    unfold BLI.Range.toList
    simp only
    rw [show (e : Int) = s + ((e - s).toNat : Int) from he]
    rw [show (s + ((e - s).toNat : Int) - s).toNat = (e - s).toNat by omega]
    exact BLI.Range.iterAux_eq_range (e - s).toNat s
  refine ⟨fun hlt => ?_, htl, ?_, fun v => ?_⟩
  · unfold BLI.Range.size
    simp only
    exact Int.emod_eq_of_lt (by omega) (by omega)
  · rw [htl]; simp
  · unfold BLI.Range.contains
    simp only [Bool.and_eq_true, decide_eq_true_eq, ge_iff_le]

/-- Witness for C6: `Range(2, 5)` has size 3, iterates as `[2, 3, 4]` and
contains 3. -/
theorem BLI_Range_iteration_spec_witness :
    (BLI.Range.mk 2 5).size = 3 ∧
    (BLI.Range.mk 2 5).toList = [2, 3, 4] ∧
    (BLI.Range.mk 2 5).contains 3 = true := by
  have h := BLI_Range_iteration_spec 2 5 (by decide)
  refine ⟨?_, ?_, ?_⟩
  · rw [h.1 (by decide)]; decide
  · rw [h.2.1]; rfl
  · exact (h.2.2.2 3).mpr (by constructor <;> decide)

/-- C7: the constructor assertion `start <= one_after_last` fails for every
pair with `start > one_after_last` and holds for every pair with
`start <= one_after_last`; the `slice(start, size)` assertion holds iff
`m_start + start + size <= m_one_after_last` or `size == 0`. -/
theorem BLI_Range_assert_spec :
    (∀ s e : Int, e < s → BLI.Range.ctor_assert s e = false) ∧
    (∀ s e : Int, s ≤ e → BLI.Range.ctor_assert s e = true) ∧
    (∀ (r : BLI.Range) (st sz : Nat),
      BLI.Range.slice_assert r st sz = true ↔
        ((r.m_start + st + sz : Int) ≤ r.m_one_after_last ∨ sz = 0)) := by
  refine ⟨fun s e hlt => ?_, fun s e hle => ?_, fun r st sz => ?_⟩
  · simp [BLI.Range.ctor_assert]; omega
  · simp [BLI.Range.ctor_assert]; omega
  · simp [BLI.Range.slice_assert]

/-- Witness for C7: `Range(3, 1)` violates the constructor assertion,
`Range(1, 3)` satisfies it, and slicing `Range(0, 5)` at offset 1 with size 2
satisfies the slice assertion. -/
theorem BLI_Range_assert_spec_witness :
    BLI.Range.ctor_assert 3 1 = false ∧
    BLI.Range.ctor_assert 1 3 = true ∧
    BLI.Range.slice_assert (BLI.Range.mk 0 5) 1 2 = true := by
  refine ⟨BLI_Range_assert_spec.1 3 1 (by decide),
    BLI_Range_assert_spec.2.1 1 3 (by decide),
    (BLI_Range_assert_spec.2.2 (BLI.Range.mk 0 5) 1 2).mpr (Or.inl (by decide))⟩

/-- C10: `operator==` on ranges compares the two representation fields, so
the empty ranges `Range(1, 1)` and `Range(2, 2)` compare unequal even though
neither contains any number. -/
theorem BLI_Range_eq_representational :
    (∀ a b : BLI.Range, BLI.Range.rangeEq a b = true ↔
      (a.m_start = b.m_start ∧ a.m_one_after_last = b.m_one_after_last)) ∧
    BLI.Range.rangeEq (BLI.Range.mk 1 1) (BLI.Range.mk 2 2) = false ∧
    (∀ v : Int, BLI.Range.contains (BLI.Range.mk 1 1) v = false) ∧
    (∀ v : Int, BLI.Range.contains (BLI.Range.mk 2 2) v = false) := by
  refine ⟨fun a b => ?_, by decide, fun v => ?_, fun v => ?_⟩
  · simp [BLI.Range.rangeEq]
  · simp [BLI.Range.contains]
  · simp [BLI.Range.contains]

/-- Witness for C10: equal representations compare equal, the two distinct
empty ranges compare unequal, and neither contains 1. -/
theorem BLI_Range_eq_representational_witness :
    BLI.Range.rangeEq (BLI.Range.mk 1 1) (BLI.Range.mk 1 1) = true ∧
    BLI.Range.rangeEq (BLI.Range.mk 1 1) (BLI.Range.mk 2 2) = false ∧
    BLI.Range.contains (BLI.Range.mk 1 1) 1 = false := by
  exact ⟨(BLI_Range_eq_representational.1 _ _).mpr ⟨rfl, rfl⟩,
    BLI_Range_eq_representational.2.1,
    BLI_Range_eq_representational.2.2.1 1⟩

/- Part 3 helpers -/

/-- Zipping two maps over the same list is a single map. -/
theorem zipWith_map_same {α β γ δ : Type} (f : β → γ → δ) (g : α → β) (h : α → γ) :
    ∀ l : List α, List.zipWith f (l.map g) (l.map h) = l.map (fun x => f (g x) (h x)) := by
  intro l; induction l with
  | nil => rfl
  | cons x xs ih => simp [ih]

/-- Zipping the stroke-emission combination against an all-false mask leaves
the counts unchanged. -/
theorem zipWith_emit_replicate_false (l : List Nat) :
    List.zipWith (fun e n => (if e = true then 1 else 0) + n)
      (List.replicate l.length false) l = l := by
  induction l with
  | nil => rfl
  | cons x xs ih => simp [List.replicate_succ, ih]

namespace LANPR

/-- Unfolding of `chainRunCalls` on a nonempty call list. -/
theorem chainRunCalls_cons (m : Int) (p : GenCall) (rest : List GenCall)
    (c : RenderLineChain) :
    chainRunCalls m (p :: rest) c =
      ((chainRunCalls m rest (chainStepM m p c).1).1,
       (if (chainStepM m p c).2 then 1 else 0) +
         (chainRunCalls m rest (chainStepM m p c).1).2) := by
  simp [chainRunCalls]

/-- A picked chain is rejected and left untouched by every generate call. -/
theorem chainStepM_picked (m : Int) (p : GenCall) (c : RenderLineChain)
    (h : c.picked = true) : chainStepM m p c = (c, false) := by
  simp [chainStepM, chainStep, chainAccept, h]

/-- A chain for which a stroke is emitted has its picked flag set. -/
theorem chainStepM_emit_picked (m : Int) (p : GenCall) (c : RenderLineChain)
    (h : (chainStepM m p c).2 = true) : (chainStepM m p c).1.picked = true := by
  unfold chainStepM chainStep at *
  split_ifs at h ⊢
  simp_all

/-- The picked flag is never cleared by a generate call. -/
theorem chainStepM_mono (m : Int) (p : GenCall) (c : RenderLineChain)
    (h : c.picked = true) : (chainStepM m p c).1.picked = true := by
  rw [chainStepM_picked m p c h]; exact h

/-- Over any sequence of generate calls, a chain that starts picked stays
picked and is never emitted. -/
theorem chainRunCalls_picked (m : Int) (calls : List GenCall) :
    ∀ c : RenderLineChain, c.picked = true →
      (chainRunCalls m calls c).1.picked = true ∧ (chainRunCalls m calls c).2 = 0 := by
  induction calls with
  | nil => intro c h; exact ⟨h, rfl⟩
  | cons p rest ih =>
    intro c h
    rw [chainRunCalls_cons]
    rw [chainStepM_picked m p c h]
    simpa using ih c h

/-- Over any sequence of generate calls, at most one stroke is emitted per
chain: once emitted, the chain is picked and every later call rejects it. -/
theorem chainRunCalls_le_one (m : Int) (calls : List GenCall) :
    ∀ c : RenderLineChain, (chainRunCalls m calls c).2 ≤ 1 := by
  induction calls with
  | nil => intro c; simp [chainRunCalls]
  | cons p rest ih =>
    intro c
    rw [chainRunCalls_cons]
    rcases he : (chainStepM m p c).2 with _ | _
    · simpa using ih (chainStepM m p c).1
    · have hp := chainStepM_emit_picked m p c he
      have h0 := (chainRunCalls_picked m rest _ hp).2
      simp [h0]

/-- A chain emitted at least once ends with its picked flag set. -/
theorem chainRunCalls_emit_picked (m : Int) (calls : List GenCall) :
    ∀ c : RenderLineChain, 1 ≤ (chainRunCalls m calls c).2 →
      (chainRunCalls m calls c).1.picked = true := by
  induction calls with
  | nil => intro c h; simp [chainRunCalls] at h
  | cons p rest ih =>
    intro c h
    rw [chainRunCalls_cons] at h ⊢
    rcases he : (chainStepM m p c).2 with _ | _
    · rw [he] at h; simp at h
      exact ih _ h
    · have hp := chainStepM_emit_picked m p c he
      exact (chainRunCalls_picked m rest _ hp).1

/-- `runCalls` acts chain by chain: the final buffer and the emission counts
are pointwise images of the initial chain list under `chainRunCalls`, and the
cached frame stamp is untouched. -/
theorem runCalls_pointwise (m : Int) (calls : List GenCall) :
    ∀ b : RenderBuffer,
      (runCalls m b calls).1.cached_for_frame = b.cached_for_frame ∧
      (runCalls m b calls).1.chains =
        b.chains.map (fun c => (chainRunCalls m calls c).1) ∧
      (runCalls m b calls).2 =
        b.chains.map (fun c => (chainRunCalls m calls c).2) := by
  induction calls with
  | nil =>
    intro b
    refine ⟨rfl, by simp [runCalls, chainRunCalls], ?_⟩
    simp [runCalls, chainRunCalls]
  | cons p rest ih =>
    intro b
    by_cases hm : m ≠ LANPR_MASTER_MODE_SOFTWARE
    · have hgen : generateOnBuffer m b p = (b, List.replicate b.chains.length false) := by
        simp [generateOnBuffer, hm]
      have hstep : ∀ c : RenderLineChain, chainStepM m p c = (c, false) := by
        intro c; simp [chainStepM, hm]
      have ihb := ih b
      refine ⟨?_, ?_, ?_⟩
      · simp only [runCalls, hgen]
        exact ihb.1
      · simp only [runCalls, hgen]
        rw [ihb.2.1]
        exact List.map_congr_left fun c _ => by rw [chainRunCalls_cons, hstep c]
      · simp only [runCalls, hgen]
        rw [ihb.2.2]
        rw [show b.chains.length =
          (b.chains.map (fun c => (chainRunCalls m rest c).2)).length by simp]
        rw [zipWith_emit_replicate_false]
        exact List.map_congr_left fun c _ => by
          rw [chainRunCalls_cons, hstep c]
          simp
    · push_neg at hm
      have hgen : generateOnBuffer m b p =
          ({ b with chains := (b.chains.map (chainStep p)).map Prod.fst },
           (b.chains.map (chainStep p)).map Prod.snd) := by
        simp [generateOnBuffer, hm]
      have hstep : ∀ c : RenderLineChain, chainStepM m p c = chainStep p c := by
        intro c; simp [chainStepM, hm]
      have ihb := ih { b with chains := (b.chains.map (chainStep p)).map Prod.fst }
      refine ⟨?_, ?_, ?_⟩
      · simp only [runCalls, hgen]
        exact ihb.1
      · simp only [runCalls, hgen]
        rw [ihb.2.1]
        simp only [List.map_map]
        exact List.map_congr_left fun c _ => by
          simp [Function.comp, chainRunCalls_cons, hstep c]
      · simp only [runCalls, hgen]
        rw [ihb.2.2]
        simp only [List.map_map]
        rw [zipWith_map_same]
        exact List.map_congr_left fun c _ => by
          simp [Function.comp, chainRunCalls_cons, hstep c]

/-- Every per-chain emission count produced by the two traversal passes is at
most one. -/
theorem runCalls_counts_le_one (m : Int) (b : RenderBuffer) (calls : List GenCall) :
    ∀ x ∈ (runCalls m b calls).2, x ≤ 1 := by
  intro x hx
  rw [(runCalls_pointwise m calls b).2.2] at hx
  obtain ⟨c, _, rfl⟩ := List.mem_map.mp hx
  exact chainRunCalls_le_one m calls c

/-- Normal form of the single-frame operator body: some buffer `b` (the lazy
recomputation result or the cache) is cleared and run through both passes,
and the invocation flag is exactly the absent-or-stale test. -/
theorem updateGpStrokesBody_eq (scene : Scene) (share : Option RenderBuffer)
    (nc : List RenderLineChain) (calls : List GenCall) :
    ∃ b : RenderBuffer,
      updateGpStrokesBody scene share nc calls =
        (some (runCalls scene.lanpr.master_mode
            (lanpr_chain_clear_picked_flag b) calls).1,
         (match share with
          | none => true
          | some rb => decide (rb.cached_for_frame ≠ scene.cfra)),
         (runCalls scene.lanpr.master_mode
            (lanpr_chain_clear_picked_flag b) calls).2) := by
  cases share with
  | none =>
    exact ⟨lanpr_compute_feature_lines_internal scene.cfra nc, rfl⟩
  | some rb =>
    by_cases hc : rb.cached_for_frame ≠ scene.cfra
    · refine ⟨lanpr_compute_feature_lines_internal scene.cfra nc, ?_⟩
      simp [updateGpStrokesBody, hc]
    · refine ⟨rb, ?_⟩
      simp [updateGpStrokesBody, hc]

/-- The feature-line invocation flag of the operator body is an iff with the
absent-or-stale condition on the shared buffer. -/
theorem updateGpStrokesBody_invoked (scene : Scene) (share : Option RenderBuffer)
    (nc : List RenderLineChain) (calls : List GenCall) :
    ((updateGpStrokesBody scene share nc calls).2.1 = true ↔
      (share = none ∨ ∃ rb, share = some rb ∧ rb.cached_for_frame ≠ scene.cfra)) := by
  obtain ⟨b, hb⟩ := updateGpStrokesBody_eq scene share nc calls
  rw [hb]
  cases share with
  | none => simp
  | some rb => simp

/-- Per-chain emission counts of the operator body are at most one. -/
theorem updateGpStrokesBody_counts_le_one (scene : Scene)
    (share : Option RenderBuffer) (nc : List RenderLineChain)
    (calls : List GenCall) :
    ∀ x ∈ (updateGpStrokesBody scene share nc calls).2.2, x ≤ 1 := by
  obtain ⟨b, hb⟩ := updateGpStrokesBody_eq scene share nc calls
  rw [hb]
  exact runCalls_counts_le_one _ _ calls

/-- `zip` of two maps over the same list is one map producing the pairs. -/
theorem zip_map_same {α β γ : Type} (g : α → β) (h : α → γ) (l : List α) :
    (l.map g).zip (l.map h) = l.map (fun x => (g x, h x)) := by
  induction l with
  | nil => rfl
  | cons x xs ih => simp [List.zip_cons_cons, ih]

/-- Every chain of the final buffer whose emission count is at least one has
its picked flag set. -/
theorem updateGpStrokesBody_emitted_picked (scene : Scene)
    (share : Option RenderBuffer) (nc : List RenderLineChain)
    (calls : List GenCall) :
    ∀ b2, (updateGpStrokesBody scene share nc calls).1 = some b2 →
      ∀ pr ∈ ((updateGpStrokesBody scene share nc calls).2.2).zip b2.chains,
        1 ≤ pr.1 → pr.2.picked = true := by
  obtain ⟨b, hb⟩ := updateGpStrokesBody_eq scene share nc calls
  rw [hb]
  intro b2 hb2 pr hpr h1
  obtain rfl := (Option.some.inj hb2).symm
  rw [(runCalls_pointwise _ calls _).2.2, (runCalls_pointwise _ calls _).2.1,
    zip_map_same] at hpr
  obtain ⟨c, _, rfl⟩ := List.mem_map.mp hpr
  exact chainRunCalls_emit_picked _ calls c h1

/-- Setting all picked flags and then clearing them is the same as clearing
them directly. -/
theorem clearPicked_setAllPicked (b : RenderBuffer) :
    lanpr_chain_clear_picked_flag
      { b with chains := b.chains.map (fun c => { c with picked := true }) } =
      lanpr_chain_clear_picked_flag b := by
  unfold lanpr_chain_clear_picked_flag
  simp only [List.map_map]
  rfl

/-- The operator body is insensitive to whatever picked flags the cached
buffer held when the operator started: the explicit clear makes them
irrelevant. -/
theorem updateGpStrokesBody_picked_independent (scene : Scene)
    (share : Option RenderBuffer) (nc : List RenderLineChain)
    (calls : List GenCall) :
    updateGpStrokesBody scene (setAllPicked share) nc calls =
      updateGpStrokesBody scene share nc calls := by
  cases share with
  | none => rfl
  | some rb =>
    by_cases hc : rb.cached_for_frame ≠ scene.cfra
    · simp [updateGpStrokesBody, setAllPicked, hc]
    · simp [updateGpStrokesBody, setAllPicked, hc, clearPicked_setAllPicked]

/-- Invariant propagation for the bake loop: counts lists accumulated so far
all bounded by one stay bounded by one. -/
theorem bake_foldl_counts_le_one (m : Int) (ncAt : Int → List RenderLineChain)
    (cAt : Int → List GenCall) :
    ∀ (frames : List Int) (st : Option RenderBuffer × List (List Nat)),
      (∀ l ∈ st.2, ∀ x ∈ l, x ≤ 1) →
      ∀ l ∈ (frames.foldl (bakeStep m ncAt cAt) st).2, ∀ x ∈ l, x ≤ 1 := by
  intro frames
  induction frames with
  | nil => intro st hst; exact hst
  | cons f rest ih =>
    intro st hst
    refine ih (bakeStep m ncAt cAt st f) ?_
    intro l hl
    have hl' : l ∈ st.2 ++ [(runCalls m
        (lanpr_chain_clear_picked_flag
          (lanpr_compute_feature_lines_internal f (ncAt f))) (cAt f)).2] := hl
    rcases List.mem_append.mp hl' with h | h
    · exact hst l h
    · rw [List.mem_singleton] at h
      subst h
      exact runCalls_counts_le_one _ _ _

/-- C2 (amended): in every execution of the three single-frame grease-pencil
update operators, the feature-line computation is invoked iff the shared
render buffer is absent or its `cached_for_frame` differs from the scene's
current frame; the external-update entry point invokes it iff additionally
the master mode is software — with a non-software master mode it returns
without recomputing even when the buffer is absent or stale.  In all cases a
buffer cached for the current frame is never recomputed. -/
theorem lanpr_lazy_recompute_spec :
    (∀ (scene : Scene) (share : Option RenderBuffer) nc calls,
      ((lanpr_update_gp_strokes_exec scene share nc calls).2.1 = true ↔
        (share = none ∨ ∃ rb, share = some rb ∧ rb.cached_for_frame ≠ scene.cfra))) ∧
    (∀ (scene : Scene) (share : Option RenderBuffer) nc calls,
      ((lanpr_update_gp_target_exec scene share nc calls).2.1 = true ↔
        (share = none ∨ ∃ rb, share = some rb ∧ rb.cached_for_frame ≠ scene.cfra))) ∧
    (∀ (scene : Scene) (share : Option RenderBuffer) nc calls,
      ((lanpr_update_gp_source_exec scene share nc calls).2.1 = true ↔
        (share = none ∨ ∃ rb, share = some rb ∧ rb.cached_for_frame ≠ scene.cfra))) ∧
    (∀ (scene : Scene) (share : Option RenderBuffer) nc,
      ((ED_lanpr_update_data_for_external scene share nc).2 = true ↔
        (scene.lanpr.master_mode = LANPR_MASTER_MODE_SOFTWARE ∧
          (share = none ∨ ∃ rb, share = some rb ∧ rb.cached_for_frame ≠ scene.cfra)))) := by
  refine ⟨fun scene share nc calls => updateGpStrokesBody_invoked scene share nc calls,
    fun scene share nc calls => updateGpStrokesBody_invoked scene share nc calls,
    fun scene share nc calls => updateGpStrokesBody_invoked scene share nc calls,
    fun scene share nc => ?_⟩
  by_cases hm : scene.lanpr.master_mode ≠ LANPR_MASTER_MODE_SOFTWARE
  · simp [ED_lanpr_update_data_for_external, hm]
  · push_neg at hm
    cases share with
    | none => simp [ED_lanpr_update_data_for_external, hm]
    | some rb =>
      by_cases hc : rb.cached_for_frame ≠ scene.cfra
      · simp [ED_lanpr_update_data_for_external, hm, hc]
      · simp [ED_lanpr_update_data_for_external, hm, hc]

/-- C2 counterexample: with a non-software master mode and an absent shared
render buffer, the external-update entry point does not invoke the
feature-line computation, although the buffer is absent — so invocation is
not equivalent to the absent-or-stale condition alone, refuting the claim as
stated for the external entry point. -/
theorem lanpr_lazy_recompute_cx :
    (ED_lanpr_update_data_for_external (Scene.mk 0 0 0 (SceneLANPR.mk 1))
      none []).2 = false ∧
    ((none : Option RenderBuffer) = none ∨
      ∃ rb, (none : Option RenderBuffer) = some rb ∧
        rb.cached_for_frame ≠ (Scene.mk 0 0 0 (SceneLANPR.mk 1)).cfra) := by
  exact ⟨rfl, Or.inl rfl⟩

/-- Witness for C2: with software master mode and an absent buffer, both the
update operator and the external entry point invoke the computation. -/
theorem lanpr_lazy_recompute_spec_witness :
    (lanpr_update_gp_strokes_exec (Scene.mk 0 0 0 (SceneLANPR.mk 0))
      none [] []).2.1 = true ∧
    (ED_lanpr_update_data_for_external (Scene.mk 0 0 0 (SceneLANPR.mk 0))
      none []).2 = true := by
  constructor
  · exact (lanpr_lazy_recompute_spec.1 (Scene.mk 0 0 0 (SceneLANPR.mk 0))
      none [] []).mpr (Or.inl rfl)
  · exact (lanpr_lazy_recompute_spec.2.2.2 (Scene.mk 0 0 0 (SceneLANPR.mk 0))
      none []).mpr ⟨rfl, Or.inl rfl⟩

/-- C3: in every update or bake operator execution, the picked flags are
cleared before stroke emission and every accepted chain is marked picked
before its stroke is added, so no chain is emitted more than once across the
recursive per-object pass and the per-collection pass: all per-chain
emission counts are at most 1 (per frame, for the bake operator), every
chain emitted at least once ends with its picked flag set, and the operator
result is independent of whatever picked flags the cached buffer held at
entry. -/
theorem lanpr_picked_once_spec :
    (∀ (scene : Scene) (share : Option RenderBuffer) nc calls,
      ∀ x ∈ (lanpr_update_gp_strokes_exec scene share nc calls).2.2, x ≤ 1) ∧
    (∀ (scene : Scene) (share : Option RenderBuffer) nc calls,
      ∀ x ∈ (lanpr_update_gp_target_exec scene share nc calls).2.2, x ≤ 1) ∧
    (∀ (scene : Scene) (share : Option RenderBuffer) nc calls,
      ∀ x ∈ (lanpr_update_gp_source_exec scene share nc calls).2.2, x ≤ 1) ∧
    (∀ (scene : Scene) (share : Option RenderBuffer) ncAt cAt,
      ∀ l ∈ (lanpr_bake_gp_strokes_exec scene share ncAt cAt).2, ∀ x ∈ l, x ≤ 1) ∧
    (∀ (scene : Scene) (share : Option RenderBuffer) nc calls b2,
      (lanpr_update_gp_strokes_exec scene share nc calls).1 = some b2 →
      ∀ pr ∈ ((lanpr_update_gp_strokes_exec scene share nc calls).2.2).zip b2.chains,
        1 ≤ pr.1 → pr.2.picked = true) ∧
    (∀ (scene : Scene) (share : Option RenderBuffer) nc calls,
      lanpr_update_gp_strokes_exec scene (setAllPicked share) nc calls =
        lanpr_update_gp_strokes_exec scene share nc calls) := by
  refine ⟨fun scene share nc calls => updateGpStrokesBody_counts_le_one scene share nc calls,
    fun scene share nc calls => updateGpStrokesBody_counts_le_one scene share nc calls,
    fun scene share nc calls => updateGpStrokesBody_counts_le_one scene share nc calls,
    fun scene share ncAt cAt => ?_,
    fun scene share nc calls => updateGpStrokesBody_emitted_picked scene share nc calls,
    fun scene share nc calls => updateGpStrokesBody_picked_independent scene share nc calls⟩
  exact bake_foldl_counts_le_one scene.lanpr.master_mode ncAt cAt
    (framesList scene.sfra scene.efra) (share, []) (by simp)

/-- Witness for C3: a buffer with one eligible chain run through two
identical passes emits exactly one stroke for it, and the chain ends
picked. -/
theorem lanpr_picked_once_spec_witness :
    (lanpr_update_gp_strokes_exec (Scene.mk 0 0 0 (SceneLANPR.mk 0)) none
        [RenderLineChain.mk false none 1 0]
        [GenCall.mk none none 0 0 1, GenCall.mk none none 0 0 1]).2.2 = [1] ∧
    (1 : Nat) ≤ 1 ∧
    (RenderLineChain.mk true none 1 0).picked = true := by
  refine ⟨by decide, ?_, ?_⟩
  · exact lanpr_picked_once_spec.1 (Scene.mk 0 0 0 (SceneLANPR.mk 0)) none
      [RenderLineChain.mk false none 1 0]
      [GenCall.mk none none 0 0 1, GenCall.mk none none 0 0 1] 1 (by decide)
  · exact lanpr_picked_once_spec.2.2.2.2.1 (Scene.mk 0 0 0 (SceneLANPR.mk 0)) none
      [RenderLineChain.mk false none 1 0]
      [GenCall.mk none none 0 0 1, GenCall.mk none none 0 0 1]
      (RenderBuffer.mk 0 [RenderLineChain.mk true none 1 0]) (by decide)
      (1, RenderLineChain.mk true none 1 0) (by decide) (by decide)

/-- The filter cascade as the conjunction of the individual survival
conditions: a chain is accepted iff it is unpicked, not filtered by the
null-object-ref test, the type bitmask, the level window, the object-match
test or the collection test. -/
theorem chainAccept_iff (p : GenCall) (c : RenderLineChain) :
    chainAccept p c = true ↔
      (c.picked = false ∧
       ¬(p.ob.isSome = true ∧ c.object_ref = none) ∧
       c.type &&& p.types ≠ 0 ∧
       (p.qi_begin ≤ c.level ∧ c.level ≤ p.qi_end) ∧
       (∀ o r, p.ob = some o → c.object_ref = some r → o = r) ∧
       (∀ cl r, p.col = some cl → c.object_ref = some r → cl.contains r = true)) := by
  rcases hob : p.ob with _ | o <;> rcases href : c.object_ref with _ | r <;>
    rcases hcol : p.col with _ | cl <;>
      simp [chainAccept, hob, href, hcol] <;>
        (intros; omega)

/-- Surviving the whole cascade of `firstRejectCode` is the same as being
accepted by the emission loop. -/
theorem firstRejectCode_none_iff (p : GenCall) (c : RenderLineChain) :
    firstRejectCode p c = none ↔ chainAccept p c = true := by
  unfold firstRejectCode chainAccept
  split_ifs <;> simp

/-- C4 (amended): stroke emission walks the cached chain list exactly once,
applying the rejection filters in the code's order — already-picked, then
the null-object-ref source filter, then the type bitmask filter, then the
level-range filter (emit only when `qi_begin <= level <= qi_end`), then the
object-match filter, then the collection filter — and a chain is emitted iff
it survives all the filters; each accepted chain is marked picked. -/
theorem lanpr_emission_filter_spec :
    (∀ (b : RenderBuffer) (p : GenCall),
      (generateOnBuffer LANPR_MASTER_MODE_SOFTWARE b p).2 =
        b.chains.map (fun c => chainAccept p c) ∧
      (generateOnBuffer LANPR_MASTER_MODE_SOFTWARE b p).1.chains =
        b.chains.map (fun c => (chainStep p c).1)) ∧
    (∀ (p : GenCall) (c : RenderLineChain),
      (chainAccept p c = true ↔
        (c.picked = false ∧
         ¬(p.ob.isSome = true ∧ c.object_ref = none) ∧
         c.type &&& p.types ≠ 0 ∧
         (p.qi_begin ≤ c.level ∧ c.level ≤ p.qi_end) ∧
         (∀ o r, p.ob = some o → c.object_ref = some r → o = r) ∧
         (∀ cl r, p.col = some cl → c.object_ref = some r → cl.contains r = true)))) ∧
    (∀ (p : GenCall) (c : RenderLineChain),
      (firstRejectCode p c = none ↔ chainAccept p c = true)) ∧
    (∀ (p : GenCall) (c : RenderLineChain),
      chainAccept p c = true → (chainStep p c).1.picked = true) := by
  refine ⟨fun b p => ?_, chainAccept_iff, firstRejectCode_none_iff, fun p c h => ?_⟩
  · have hmode : ¬(LANPR_MASTER_MODE_SOFTWARE ≠ LANPR_MASTER_MODE_SOFTWARE) := by simp
    constructor
    · show ((if LANPR_MASTER_MODE_SOFTWARE ≠ LANPR_MASTER_MODE_SOFTWARE then
          (b, List.replicate b.chains.length false)
        else
          ({ b with chains := (b.chains.map (chainStep p)).map Prod.fst },
            (b.chains.map (chainStep p)).map Prod.snd)) : RenderBuffer × List Bool).2 =
          b.chains.map (fun c => chainAccept p c)
      rw [if_neg hmode]
      simp only [List.map_map]
      exact List.map_congr_left fun c _ => by
        by_cases hc : chainAccept p c <;> simp [Function.comp, chainStep, hc]
    · show ((if LANPR_MASTER_MODE_SOFTWARE ≠ LANPR_MASTER_MODE_SOFTWARE then
          (b, List.replicate b.chains.length false)
        else
          ({ b with chains := (b.chains.map (chainStep p)).map Prod.fst },
            (b.chains.map (chainStep p)).map Prod.snd)) : RenderBuffer × List Bool).1.chains =
          b.chains.map (fun c => (chainStep p c).1)
      rw [if_neg hmode]
      simp only [List.map_map]
      rfl
  · simp [chainStep, h]

/-- C4 counterexample: for a chain whose object does not match the call's
source object and whose level lies outside the window, the code's filter
order rejects at the level filter (the object-match test is textually after
it), while the order stated by the claim — all collection/object/source
filters before the type and level filters — rejects at the source filter:
the two orders are observably different. -/
theorem lanpr_emission_filter_order_cx :
    firstRejectClaimOrder (GenCall.mk (some 1) none 0 0 1)
        (RenderLineChain.mk false (some 2) 1 5) = some FilterTag.sourceFilter ∧
    firstRejectCode (GenCall.mk (some 1) none 0 0 1)
        (RenderLineChain.mk false (some 2) 1 5) = some FilterTag.levelFilter ∧
    firstRejectClaimOrder (GenCall.mk (some 1) none 0 0 1)
        (RenderLineChain.mk false (some 2) 1 5) ≠
      firstRejectCode (GenCall.mk (some 1) none 0 0 1)
        (RenderLineChain.mk false (some 2) 1 5) := by
  refine ⟨by decide, by decide, by decide⟩

/-- Witness for C4: an unpicked chain passing every filter is accepted, is
assigned no rejecting filter, and the emission mask of a one-chain buffer is
`[true]`. -/
theorem lanpr_emission_filter_spec_witness :
    chainAccept (GenCall.mk none none 0 0 1) (RenderLineChain.mk false none 1 0) = true ∧
    firstRejectCode (GenCall.mk none none 0 0 1) (RenderLineChain.mk false none 1 0) = none ∧
    (generateOnBuffer LANPR_MASTER_MODE_SOFTWARE
      (RenderBuffer.mk 0 [RenderLineChain.mk false none 1 0])
      (GenCall.mk none none 0 0 1)).2 = [true] := by
  refine ⟨?_, ?_, ?_⟩
  · exact (lanpr_emission_filter_spec.2.1 (GenCall.mk none none 0 0 1)
      (RenderLineChain.mk false none 1 0)).mpr
      (by refine ⟨rfl, by simp, by decide, by decide, ?_, ?_⟩ <;> intro a b h1 h2 <;> cases h1)
  · exact (lanpr_emission_filter_spec.2.2.1 (GenCall.mk none none 0 0 1)
      (RenderLineChain.mk false none 1 0)).mpr (by decide)
  · rw [(lanpr_emission_filter_spec.1
      (RenderBuffer.mk 0 [RenderLineChain.mk false none 1 0])
      (GenCall.mk none none 0 0 1)).1]
    decide

end LANPR

/- Part 4 helpers -/

namespace RNA

/-- A found index is never the `-1` sentinel's predecessor side: when the
element is present, `BLI_findindex` is nonnegative. -/
theorem BLI_findindex_nonneg (c : Nat) :
    ∀ l : List PaletteColor, BLI_findindex l c ≠ -1 → 0 ≤ BLI_findindex l c := by
  intro l
  induction l with
  | nil => intro h; exact absurd rfl h
  | cons x xs ih =>
    intro h
    unfold BLI_findindex at h ⊢
    by_cases hx : x.ptr = c
    · simp [hx]
    · rw [if_neg hx] at h ⊢
      by_cases hrest : BLI_findindex xs c = -1
      · rw [if_pos hrest] at h; exact absurd rfl h
      · rw [if_neg hrest] at h ⊢
        have := ih hrest
        omega

/-- `BLI_findindex` returns the `-1` sentinel exactly when no element of the
list has the sought address. -/
theorem BLI_findindex_eq_neg_one_iff (l : List PaletteColor) (c : Nat) :
    BLI_findindex l c = -1 ↔ ∀ x ∈ l, x.ptr ≠ c := by
  induction l with
  | nil => simp [BLI_findindex]
  | cons x xs ih =>
    unfold BLI_findindex
    by_cases hx : x.ptr = c
    · rw [if_pos hx]
      simp only [List.mem_cons]
      constructor
      · intro h; exact absurd h (by decide)
      · intro h; exact absurd hx (h x (Or.inl rfl))
    · rw [if_neg hx]
      by_cases hrest : BLI_findindex xs c = -1
      · rw [if_pos hrest]
        simp only [List.mem_cons, true_iff]
        intro x' hx'
        rcases hx' with rfl | hmem
        · exact hx
        · exact (ih.mp hrest) x' hmem
      · rw [if_neg hrest]
        have hge := BLI_findindex_nonneg c xs hrest
        constructor
        · intro h; omega
        · intro h
          exact absurd (ih.mpr fun x' hmem => h x' (List.mem_cons_of_mem x hmem)) hrest

/-- C8: when the removed color is not in the palette's color list, the remove
operation reports a user-facing error and leaves the palette unchanged with
no pointer invalidated; when it is in the list, the color is removed (one
element shorter, everything else untouched) and the RNA reference is
invalidated. -/
theorem rna_Palette_color_remove_spec (p : Palette) (reports : List String)
    (c : Nat) :
    ((∀ x ∈ p.colors, x.ptr ≠ c) →
      rna_Palette_color_remove p reports c =
        (p, reports ++ [paletteRemoveError p], false)) ∧
    ((∃ x ∈ p.colors, x.ptr = c) →
      rna_Palette_color_remove p reports c =
        (BKE_palette_color_remove p c, reports, true) ∧
      (BKE_palette_color_remove p c).colors.length + 1 = p.colors.length ∧
      (BKE_palette_color_remove p c).active_color = p.active_color ∧
      (BKE_palette_color_remove p c).id_name = p.id_name) := by
  constructor
  · intro h
    unfold rna_Palette_color_remove
    rw [if_pos ((BLI_findindex_eq_neg_one_iff p.colors c).mpr h)]
  · intro h
    obtain ⟨x, hmem, hx⟩ := h
    have hne : BLI_findindex p.colors c ≠ -1 := by
      intro hcontra
      exact absurd hx ((BLI_findindex_eq_neg_one_iff p.colors c).mp hcontra x hmem)
    refine ⟨?_, ?_, rfl, rfl⟩
    · unfold rna_Palette_color_remove
      rw [if_neg hne]
    · unfold BKE_palette_color_remove
      exact List.length_eraseP_add_one hmem (by simp [hx])

/-- Witness for C8: removing an absent color from a two-color palette reports
the error and changes nothing; removing a present color removes exactly that
color and invalidates the reference. -/
theorem rna_Palette_color_remove_spec_witness :
    rna_Palette_color_remove
        (Palette.mk "PAPalette" [PaletteColor.mk 1 "A", PaletteColor.mk 2 "B"] 0) [] 5 =
      (Palette.mk "PAPalette" [PaletteColor.mk 1 "A", PaletteColor.mk 2 "B"] 0,
        [paletteRemoveError
          (Palette.mk "PAPalette" [PaletteColor.mk 1 "A", PaletteColor.mk 2 "B"] 0)],
        false) ∧
    rna_Palette_color_remove
        (Palette.mk "PAPalette" [PaletteColor.mk 1 "A", PaletteColor.mk 2 "B"] 0) [] 2 =
      (Palette.mk "PAPalette" [PaletteColor.mk 1 "A"] 0, [], true) := by
  constructor
  · have h := (rna_Palette_color_remove_spec
      (Palette.mk "PAPalette" [PaletteColor.mk 1 "A", PaletteColor.mk 2 "B"] 0) [] 5).1
      (by decide)
    simpa using h
  · have h := ((rna_Palette_color_remove_spec
      (Palette.mk "PAPalette" [PaletteColor.mk 1 "A", PaletteColor.mk 2 "B"] 0) [] 2).2
      ⟨PaletteColor.mk 2 "B", by decide, rfl⟩).1
    rw [h]
    rfl

/-- C9 (code bug): `rna_PaletteColor_info_set` receives the pointer of the
color whose `name` property is being set, but writes the new name into the
palette's active color instead.  With colors `A` (ptr 1, active) and `B`
(ptr 2), setting the name of color 2 to "C" renames color 1 to "C" and
leaves color 2 untouched — the claim requires color 2 to become "C". -/
theorem rna_PaletteColor_info_set_bug :
    rna_PaletteColor_info_set
        (Palette.mk "PAPalette" [PaletteColor.mk 1 "A", PaletteColor.mk 2 "B"] 0)
        2 "C" =
      Palette.mk "PAPalette" [PaletteColor.mk 1 "C", PaletteColor.mk 2 "B"] 0 := by
  rfl

end RNA
